import Mathlib

/-!
Verification development for the keyguard-prime vault cryptographic engine.

The TypeScript source is shallowly embedded: pure functions become Lean
functions, the module-level mutable vault variable becomes explicit state
passing, `crypto.getRandomValues` becomes an ambient stream of random draws
(`Nat → Nat`, one draw per `getRandomValues(new Uint8Array(1))` byte, and a
block of draws for the 16-byte salt / 12-byte IV buffers), and fallible
operations return `Option`/`Except`.  Platform primitives that are not part of
the repository (WebCrypto PBKDF2/AES-GCM, `btoa`/`atob`, `TextEncoder`,
`JSON.stringify`/`JSON.parse`, SHA-256) are modelled as documented on each
definition.
-/

namespace Keyguard

/-- A byte stream standing for successive `crypto.getRandomValues` draws:
`rand i` is the i-th random byte the platform produced (reduced mod 256 where
the source reads it into a `Uint8Array`). -/
abbrev RandStream := Nat → Nat

/-- Modelled from the spec: `crypto.getRandomValues(new Uint8Array(n))`
starting at position `k` of the ambient random stream; every produced
value is a byte (strictly below 256). -/
def getRandomValues (rand : RandStream) (k n : Nat) : List Nat :=
  (List.range n).map fun i => rand (k + i) % 256

theorem getRandomValues_lt (rand : RandStream) (k n : Nat) :
    ∀ b ∈ getRandomValues rand k n, b < 256 := by
  intro b hb
  simp only [getRandomValues, List.mem_map] at hb
  obtain ⟨i, _, rfl⟩ := hb
  exact Nat.mod_lt _ (by omega)

theorem getRandomValues_length (rand : RandStream) (k n : Nat) :
    (getRandomValues rand k n).length = n := by
  simp [getRandomValues]

/-! ### Base64 (the platform `btoa` / `atob` pair used at every storage boundary) -/

/-- The base64 alphabet used by the platform `btoa`. -/
def b64chars : List Char :=
  "ABCDEFGHIJKLMNOPQRSTUVWXYZabcdefghijklmnopqrstuvwxyz0123456789+/".toList

/-- Modelled from the spec: the `btoa(String.fromCharCode(...bytes))`
composition the source uses to turn a byte buffer into a base64 string;
standard base64 with `=` padding. -/
def b64encode : List Nat → List Char
  | [] => []
  | [a] =>
      [b64chars.getD (a / 4) 'A', b64chars.getD (a % 4 * 16) 'A', '=', '=']
  | [a, b] =>
      [b64chars.getD (a / 4) 'A', b64chars.getD (a % 4 * 16 + b / 16) 'A',
       b64chars.getD (b % 16 * 4) 'A', '=']
  | a :: b :: c :: rest =>
      b64chars.getD (a / 4) 'A' :: b64chars.getD (a % 4 * 16 + b / 16) 'A' ::
      b64chars.getD (b % 16 * 4 + c / 64) 'A' :: b64chars.getD (c % 64) 'A' ::
      b64encode rest

/-- Index of a character in the base64 alphabet; `none` outside the alphabet. -/
def sextetOf (ch : Char) : Option Nat :=
  let i := b64chars.indexOf ch
  if i < 64 then some i else none

/-- Modelled from the spec: the platform `atob` (with the byte extraction
`Uint8Array.from(atob(s), c => c.charCodeAt(0))`); inverse of `b64encode`,
rejecting strings that are not valid base64. -/
def b64decode : List Char → Option (List Nat)
  | [] => some []
  | c1 :: c2 :: c3 :: c4 :: rest =>
    if c3 = '=' then
      if c4 = '=' ∧ rest = [] then
        match sextetOf c1, sextetOf c2 with
        | some s1, some s2 => some [s1 * 4 + s2 / 16]
        | _, _ => none
      else none
    else if c4 = '=' then
      if rest = [] then
        match sextetOf c1, sextetOf c2, sextetOf c3 with
        | some s1, some s2, some s3 =>
            some [s1 * 4 + s2 / 16, s2 % 16 * 16 + s3 / 4]
        | _, _, _ => none
      else none
    else
      match sextetOf c1, sextetOf c2, sextetOf c3, sextetOf c4, b64decode rest with
      | some s1, some s2, some s3, some s4, some tail =>
          some ((s1 * 4 + s2 / 16) :: (s2 % 16 * 16 + s3 / 4) :: (s3 % 4 * 64 + s4) :: tail)
      | _, _, _, _, _ => none
  | _ => none

theorem sextetOf_table_fin : ∀ s : Fin 64, sextetOf (b64chars.getD s.val 'A') = some s.val := by
  decide

theorem b64chars_ne_pad : ∀ s : Fin 64, b64chars.getD s.val 'A' ≠ '=' := by
  decide

theorem sextetOf_table (s : Nat) (h : s < 64) :
    sextetOf (b64chars.getD s 'A') = some s :=
  sextetOf_table_fin ⟨s, h⟩

theorem b64chars_ne_pad' (s : Nat) (h : s < 64) :
    b64chars.getD s 'A' ≠ '=' :=
  b64chars_ne_pad ⟨s, h⟩

theorem b64decode_b64encode_bounded :
    ∀ (n : Nat) (bs : List Nat), bs.length ≤ n → (∀ b ∈ bs, b < 256) →
      b64decode (b64encode bs) = some bs := by
  intro n
  induction n with
  | zero =>
    intro bs hlen _
    match bs with
    | [] => rfl
    | _ :: _ => simp at hlen
  | succ n ih =>
    intro bs hlen h
    match bs with
    | [] => rfl
    | [a] =>
      have ha : a < 256 := h a (by simp)
      simp only [b64encode, b64decode, if_pos rfl, and_self, if_true,
        sextetOf_table _ (show a / 4 < 64 by omega),
        sextetOf_table _ (show a % 4 * 16 < 64 by omega)]
      simp only [Option.some.injEq, List.cons.injEq, and_true]
      omega
    | [a, b] =>
      have ha : a < 256 := h a (by simp)
      have hb : b < 256 := h b (by simp)
      simp only [b64encode, b64decode,
        if_neg (b64chars_ne_pad' _ (show b % 16 * 4 < 64 by omega)), if_pos rfl,
        if_true,
        sextetOf_table _ (show a / 4 < 64 by omega),
        sextetOf_table _ (show a % 4 * 16 + b / 16 < 64 by omega),
        sextetOf_table _ (show b % 16 * 4 < 64 by omega)]
      simp only [Option.some.injEq, List.cons.injEq, and_true]
      omega
    | a :: b :: c :: rest =>
      have ha : a < 256 := h a (by simp)
      have hb : b < 256 := h b (by simp)
      have hc : c < 256 := h c (by simp)
      have hrest : ∀ x ∈ rest, x < 256 := by
        intro x hx
        exact h x (by simp [hx])
      have hlen' : rest.length ≤ n := by
        simp at hlen
        omega
      simp only [b64encode, b64decode,
        if_neg (b64chars_ne_pad' _ (show b % 16 * 4 + c / 64 < 64 by omega)),
        if_neg (b64chars_ne_pad' _ (show c % 64 < 64 by omega)),
        sextetOf_table _ (show a / 4 < 64 by omega),
        sextetOf_table _ (show a % 4 * 16 + b / 16 < 64 by omega),
        sextetOf_table _ (show b % 16 * 4 + c / 64 < 64 by omega),
        sextetOf_table _ (show c % 64 < 64 by omega),
        ih rest hlen' hrest]
      simp only [Option.some.injEq, List.cons.injEq, and_true]
      omega

theorem b64decode_b64encode (bs : List Nat) (h : ∀ b ∈ bs, b < 256) :
    b64decode (b64encode bs) = some bs :=
  b64decode_b64encode_bounded bs.length bs (Nat.le_refl _) h

theorem b64encode_ne_nil (bs : List Nat) (h : bs ≠ []) : b64encode bs ≠ [] := by
  match bs with
  | [] => exact absurd rfl h
  | [a] => simp [b64encode]
  | [a, b] => simp [b64encode]
  | a :: b :: c :: rest => simp [b64encode]

/-! ### Text encoding (the platform `TextEncoder` / `TextDecoder` pair) -/

/-- Modelled from the spec: `new TextEncoder().encode(data)`, modelled as the
list of Unicode code points of the string (injective, with `textDecode` as its
inverse); the UTF-8 byte-level details of the platform encoder are folded into
the ideal cipher model, which treats the plaintext buffer as opaque. -/
def textEncode (s : String) : List Nat :=
  s.toList.map Char.toNat

/-- Modelled from the spec: `new TextDecoder().decode(buffer)`, the inverse of
`textEncode`. -/
def textDecode (bytes : List Nat) : String :=
  String.mk (bytes.map Char.ofNat)

theorem textDecode_textEncode (s : String) : textDecode (textEncode s) = s := by
  simp [textDecode, textEncode, List.map_map, Function.comp_def, Char.ofNat_toNat]

/-! ### KeyDerivation and the AES-GCM primitive (part_004, `deriveKey` /
`crypto.subtle.encrypt` / `crypto.subtle.decrypt`) -/

/-- Modelled from the spec: the opaque 256-bit AES key produced by PBKDF2
(`crypto.subtle.deriveKey` with SHA-256 and 100,000 iterations).  PBKDF2 is an
external platform primitive; per the spec it is deterministic in
`(masterPassword, salt)` and distinct inputs yield unlinkable keys, so the key
is modelled as the pair itself. -/
structure CryptoKey where
  password : String
  salt : List Nat
deriving DecidableEq, Repr

/-- Embedding of `deriveKey` from part_004: derives the AES-GCM key for one
master password and one salt. -/
def deriveKey (masterPassword : String) (salt : List Nat) : CryptoKey :=
  ⟨masterPassword, salt⟩

/-- Modelled from the spec: an AES-256-GCM ciphertext-plus-tag buffer
(`crypto.subtle.encrypt` output).  The primitive is external; it is modelled as
an ideal authenticated cipher, so the sealed box records the key and IV it was
produced under together with the plaintext buffer, and the byte serialization
of the ciphertext (plus its base64 wrapping in `encryptData`) is folded into
this opaque representation. -/
structure GCMSealed where
  key : CryptoKey
  iv : List Nat
  data : List Nat
deriving DecidableEq, Repr

/-- Modelled from the spec: `crypto.subtle.encrypt({name: 'AES-GCM', iv}, key, data)`. -/
def subtleEncrypt (key : CryptoKey) (iv : List Nat) (data : List Nat) : GCMSealed :=
  ⟨key, iv, data⟩

/-- Modelled from the spec: `crypto.subtle.decrypt({name: 'AES-GCM', iv}, key, buf)`;
the GCM tag verifies exactly when the same key and IV are supplied, otherwise
the primitive rejects (`none`), which the source surfaces as its single
authentication failure. -/
def subtleDecrypt (key : CryptoKey) (iv : List Nat) (sealed : GCMSealed) :
    Option (List Nat) :=
  if sealed.key = key ∧ sealed.iv = iv then some sealed.data else none

/-! ### EncryptionCodec (part_004, `encryptData` / `decryptData`) -/

/-- Embedding of the `EncryptedData` interface from part_004.  `iv` and `salt`
are the base64 strings of the raw 12- and 16-byte buffers exactly as in the source;
`encryptedData` holds the sealed AES-GCM buffer (see `GCMSealed` for why its
base64 serialization is folded into the model). -/
structure EncryptedData where
  encryptedData : GCMSealed
  iv : String
  salt : String
deriving DecidableEq, Repr

/-- Embedding of `encryptData` from part_004: draws a fresh 16-byte salt and
12-byte IV from the random stream, derives the key, seals the encoded
plaintext, and base64-encodes the salt and IV. -/
def encryptData (rand : RandStream) (data : String) (masterPassword : String) :
    EncryptedData :=
  let dataBuffer := textEncode data
  let salt := getRandomValues rand 0 16
  let iv := getRandomValues rand 16 12
  let key := deriveKey masterPassword salt
  let encryptedBuffer := subtleEncrypt key iv dataBuffer
  { encryptedData := encryptedBuffer
    iv := String.mk (b64encode iv)
    salt := String.mk (b64encode salt) }

/-- Embedding of `decryptData` from part_004: base64-decodes the IV and salt
(an `atob` failure there is raised outside the source's try/catch, hence the
distinct `InvalidCharacterError`), re-derives the key, and opens the sealed
buffer; a GCM authentication failure is caught and rethrown as the single
`Invalid master password or corrupted data` error. -/
def decryptData (encrypted : EncryptedData) (masterPassword : String) :
    Except String String :=
  match b64decode encrypted.iv.toList with
  | none => .error "InvalidCharacterError"
  | some iv =>
    match b64decode encrypted.salt.toList with
    | none => .error "InvalidCharacterError"
    | some salt =>
      let key := deriveKey masterPassword salt
      match subtleDecrypt key iv encrypted.encryptedData with
      | some decryptedBuffer => .ok (textDecode decryptedBuffer)
      | none => .error "Invalid master password or corrupted data"

theorem toList_mk (l : List Char) : (String.mk l).toList = l := rfl

/-- C1: for every plaintext string P and master password M, decrypting the
result of encrypting P under M with the same password M returns exactly P. -/
theorem encrypt_decrypt_roundtrip (rand : RandStream) (P M : String) :
    decryptData (encryptData rand P M) M = .ok P := by
  unfold decryptData encryptData
  simp only [toList_mk,
    b64decode_b64encode _ (getRandomValues_lt rand 16 12),
    b64decode_b64encode _ (getRandomValues_lt rand 0 16)]
  simp [subtleDecrypt, subtleEncrypt, deriveKey, textDecode_textEncode]

/-- C2: decrypting `encrypt(P, M1)` with a different password `M2 ≠ M1` fails
with the single authentication-failure error the source raises for both a
wrong password and a corrupted blob, and no plaintext is returned. -/
theorem decrypt_wrong_password (rand : RandStream) (P M1 M2 : String)
    (h : M1 ≠ M2) :
    decryptData (encryptData rand P M1) M2 =
      .error "Invalid master password or corrupted data" := by
  unfold decryptData encryptData
  simp only [toList_mk,
    b64decode_b64encode _ (getRandomValues_lt rand 16 12),
    b64decode_b64encode _ (getRandomValues_lt rand 0 16)]
  simp [subtleDecrypt, subtleEncrypt, deriveKey]
  rw [if_neg h]

/-- Witness for C2 at a concrete input: the passwords differ and decryption
with the wrong one reports the authentication failure. -/
theorem decrypt_wrong_password_witness :
    ("hunter2" : String) ≠ "hunter3" ∧
      decryptData (encryptData (fun i => i) "secret" "hunter2") "hunter3" =
        .error "Invalid master password or corrupted data" :=
  ⟨by decide, decrypt_wrong_password (fun i => i) "secret" "hunter2" "hunter3" (by decide)⟩

/-! ### SHA-256 (the platform `crypto.subtle.digest('SHA-256', data)`) -/

/-- Reduction of a machine word to 32 bits. -/
def w32 (n : Nat) : Nat := n % 4294967296

/-- Right rotation of a 32-bit word. -/
def rotr32 (n x : Nat) : Nat := w32 (x / 2 ^ n + x % 2 ^ n * 2 ^ (32 - n))

def shr32 (n x : Nat) : Nat := x / 2 ^ n

def sha256Ch (x y z : Nat) : Nat := (x &&& y) ^^^ ((x ^^^ 4294967295) &&& z)

def sha256Maj (x y z : Nat) : Nat := (x &&& y) ^^^ (x &&& z) ^^^ (y &&& z)

def bsig0 (x : Nat) : Nat := rotr32 2 x ^^^ rotr32 13 x ^^^ rotr32 22 x

def bsig1 (x : Nat) : Nat := rotr32 6 x ^^^ rotr32 11 x ^^^ rotr32 25 x

def ssig0 (x : Nat) : Nat := rotr32 7 x ^^^ rotr32 18 x ^^^ shr32 3 x

def ssig1 (x : Nat) : Nat := rotr32 17 x ^^^ rotr32 19 x ^^^ shr32 10 x

/-- The 64 SHA-256 round constants (FIPS 180-4, written in decimal). -/
def sha256K : List Nat :=
  [1116352408, 1899447441, 3049323471, 3921009573, 961987163,
   1508970993, 2453635748, 2870763221, 3624381080, 310598401,
   607225278, 1426881987, 1925078388, 2162078206, 2614888103,
   3248222580, 3835390401, 4022224774, 264347078, 604807628,
   770255983, 1249150122, 1555081692, 1996064986, 2554220882,
   2821834349, 2952996808, 3210313671, 3336571891, 3584528711,
   113926993, 338241895, 666307205, 773529912, 1294757372,
   1396182291, 1695183700, 1986661051, 2177026350, 2456956037,
   2730485921, 2820302411, 3259730800, 3345764771, 3516065817,
   3600352804, 4094571909, 275423344, 430227734, 506948616,
   659060556, 883997877, 958139571, 1322822218, 1537002063,
   1747873779, 1955562222, 2024104815, 2227730452, 2361852424,
   2428436474, 2756734187, 3204031479, 3329325298]

/-- The initial SHA-256 hash state (FIPS 180-4, written in decimal). -/
def sha256H0 : List Nat :=
  [1779033703, 3144134277, 1013904242, 2773480762,
   1359893119, 2600822924, 528734635, 1541459225]

/-- Big-endian 32-bit words from a byte list (full 4-byte groups). -/
def bytesToWords : List Nat → List Nat
  | a :: b :: c :: d :: rest => (a * 16777216 + b * 65536 + c * 256 + d) :: bytesToWords rest
  | _ => []

/-- Message-schedule extension, on a reversed word list (head = most recent
word): prepends `fuel` further schedule words. -/
def sha256ExtendRev : Nat → List Nat → List Nat
  | 0, w => w
  | fuel + 1, w =>
      sha256ExtendRev fuel
        (w32 (ssig1 (w.getD 1 0) + w.getD 6 0 + ssig0 (w.getD 14 0) + w.getD 15 0) :: w)

/-- The eight 32-bit working registers of the compression loop. -/
structure Sha256Regs where
  a : Nat
  b : Nat
  c : Nat
  d : Nat
  e : Nat
  f : Nat
  g : Nat
  h : Nat
deriving Repr

/-- One SHA-256 compression round. -/
def sha256Round (st : Sha256Regs) (kw wt : Nat) : Sha256Regs :=
  let t1 := w32 (st.h + bsig1 st.e + sha256Ch st.e st.f st.g + kw + wt)
  let t2 := w32 (bsig0 st.a + sha256Maj st.a st.b st.c)
  ⟨w32 (t1 + t2), st.a, st.b, st.c, w32 (st.d + t1), st.e, st.f, st.g⟩

def sha256Rounds (st : Sha256Regs) : List (Nat × Nat) → Sha256Regs
  | [] => st
  | (kw, wt) :: rest => sha256Rounds (sha256Round st kw wt) rest

/-- Compression of one 64-byte chunk into the running eight-word hash state. -/
def sha256Compress (hs : List Nat) (chunk : List Nat) : List Nat :=
  let ws := (sha256ExtendRev 48 (bytesToWords chunk).reverse).reverse
  let st0 : Sha256Regs :=
    ⟨hs.getD 0 0, hs.getD 1 0, hs.getD 2 0, hs.getD 3 0,
     hs.getD 4 0, hs.getD 5 0, hs.getD 6 0, hs.getD 7 0⟩
  let st := sha256Rounds st0 (sha256K.zip ws)
  [w32 (hs.getD 0 0 + st.a), w32 (hs.getD 1 0 + st.b), w32 (hs.getD 2 0 + st.c),
   w32 (hs.getD 3 0 + st.d), w32 (hs.getD 4 0 + st.e), w32 (hs.getD 5 0 + st.f),
   w32 (hs.getD 6 0 + st.g), w32 (hs.getD 7 0 + st.h)]

def sha256Chunks : Nat → List Nat → List Nat → List Nat
  | 0, hs, _ => hs
  | fuel + 1, hs, bytes => sha256Chunks fuel (sha256Compress hs (bytes.take 64)) (bytes.drop 64)

/-- The 8-byte big-endian bit-length trailer of the SHA-256 padding. -/
def sha256LenBytes (bits : Nat) : List Nat :=
  [bits / 72057594037927936 % 256, bits / 281474976710656 % 256,
   bits / 1099511627776 % 256, bits / 4294967296 % 256,
   bits / 16777216 % 256, bits / 65536 % 256, bits / 256 % 256, bits % 256]

/-- SHA-256 message padding: a 0x80 byte, zeros to 56 mod 64, then the
big-endian 64-bit bit length. -/
def sha256Pad (msg : List Nat) : List Nat :=
  let padZeros := (120 - (msg.length + 1) % 64) % 64
  msg ++ 0x80 :: (List.replicate padZeros 0 ++ sha256LenBytes (msg.length * 8))

/-- Big-endian bytes of one 32-bit word. -/
def be32Bytes (w : Nat) : List Nat :=
  [w / 16777216 % 256, w / 65536 % 256, w / 256 % 256, w % 256]

/-- Modelled from the spec: the platform `crypto.subtle.digest('SHA-256', data)`
primitive, implemented as the full FIPS 180-4 SHA-256 over a byte list. -/
def sha256 (msg : List Nat) : List Nat :=
  let padded := sha256Pad msg
  let hs := sha256Chunks (padded.length / 64) sha256H0 padded
  (hs.map be32Bytes).flatten

/-- Modelled from the spec: `new TextEncoder().encode(s)` where the bytes feed
the SHA-256 digest, so here the genuine UTF-8 bytes matter; standard UTF-8
encoding of each code point. -/
def utf8EncodeChar (n : Nat) : List Nat :=
  if n < 128 then [n]
  else if n < 2048 then [192 + n / 64, 128 + n % 64]
  else if n < 65536 then [224 + n / 4096, 128 + n / 64 % 64, 128 + n % 64]
  else [240 + n / 262144, 128 + n / 4096 % 64, 128 + n / 64 % 64, 128 + n % 64]

def utf8Bytes (s : String) : List Nat :=
  (s.toList.map fun c => utf8EncodeChar c.toNat).flatten

theorem sha256Chunks_length (fuel : Nat) :
    ∀ hs bytes, hs.length = 8 → (sha256Chunks fuel hs bytes).length = 8 := by
  induction fuel with
  | zero => intro hs bytes h; exact h
  | succ n ih =>
    intro hs bytes h
    exact ih _ _ (by simp [sha256Compress])

theorem sha256_ne_nil (msg : List Nat) : sha256 msg ≠ [] := by
  unfold sha256
  intro hcontra
  simp only at hcontra
  have h8 : (sha256Chunks ((sha256Pad msg).length / 64) sha256H0 (sha256Pad msg)).length = 8 :=
    sha256Chunks_length _ _ _ (by simp [sha256H0])
  match hhs : sha256Chunks ((sha256Pad msg).length / 64) sha256H0 (sha256Pad msg) with
  | [] => rw [hhs] at h8; simp at h8
  | w :: ws =>
    rw [hhs] at hcontra
    simp [be32Bytes] at hcontra

/-! ### Data model (part_004 `PasswordEntry`, part_003 `VaultData`) -/

/-- Embedding of the `PasswordEntry` interface from part_004. -/
structure PasswordEntry where
  id : String
  website : String
  username : String
  password : String
  notes : String
  createdAt : String
  updatedAt : String
deriving DecidableEq, Repr

/-- Embedding of the `VaultData` interface from part_003 (the canonical
embedded-hash variant). -/
structure VaultData where
  entries : List PasswordEntry
  version : String
  lastModified : String
  masterPasswordHash : String
deriving DecidableEq, Repr

/-! ### JSON serialization of the vault payload

`JSON.stringify` / `JSON.parse` are platform primitives; they are modelled by
a concrete serializer for exactly the vault payload shape and a
recursive-descent parser accepting the emitted layout. -/

/-- Escaping of the two JSON-significant characters inside a string value. -/
def jsonEscape (s : String) : String :=
  String.mk ((s.toList.map fun c =>
    if c = '\\' then ['\\', '\\'] else if c = '"' then ['\\', '"'] else [c]).flatten)

/-- A JSON string literal. -/
def jstr (s : String) : String := "\"" ++ jsonEscape s ++ "\""

/-- Modelled from the spec: `JSON.stringify` of one `PasswordEntry`, with the
fields in source declaration order; control characters are left unescaped in
this model. -/
def stringifyEntry (e : PasswordEntry) : String :=
  "\x7b\"id\":" ++ jstr e.id ++ ",\"website\":" ++ jstr e.website ++
  ",\"username\":" ++ jstr e.username ++ ",\"password\":" ++ jstr e.password ++
  ",\"notes\":" ++ jstr e.notes ++ ",\"createdAt\":" ++ jstr e.createdAt ++
  ",\"updatedAt\":" ++ jstr e.updatedAt ++ "\x7d"

/-- Modelled from the spec: `JSON.stringify` of a `VaultData` value. -/
def stringifyVaultData (v : VaultData) : String :=
  "\x7b\"entries\":[" ++ String.intercalate "," (v.entries.map stringifyEntry) ++
  "],\"version\":" ++ jstr v.version ++
  ",\"lastModified\":" ++ jstr v.lastModified ++
  ",\"masterPasswordHash\":" ++ jstr v.masterPasswordHash ++ "\x7d"

/-- Scanner for the body of a JSON string literal (after the opening quote);
accumulates characters until the unescaped closing quote. -/
def parseStringGo : List Char → List Char → Option (String × List Char)
  | [], _ => none
  | '\\' :: c :: rest, acc => parseStringGo rest (c :: acc)
  | '"' :: rest, acc => some (String.mk acc.reverse, rest)
  | c :: rest, acc => parseStringGo rest (c :: acc)

/-- Parser for a JSON string literal. -/
def parseJsonString : List Char → Option (String × List Char)
  | '"' :: rest => parseStringGo rest []
  | _ => none

/-- Consumes an expected literal character sequence. -/
def expectLit : List Char → List Char → Option (List Char)
  | [], s => some s
  | l :: ls, c :: cs => if l = c then expectLit ls cs else none
  | _ :: _, [] => none

/-- Parser for one serialized `PasswordEntry`. -/
def parseEntry (s : List Char) : Option (PasswordEntry × List Char) := do
  let s ← expectLit "\x7b\"id\":".toList s
  let (id, s) ← parseJsonString s
  let s ← expectLit ",\"website\":".toList s
  let (website, s) ← parseJsonString s
  let s ← expectLit ",\"username\":".toList s
  let (username, s) ← parseJsonString s
  let s ← expectLit ",\"password\":".toList s
  let (password, s) ← parseJsonString s
  let s ← expectLit ",\"notes\":".toList s
  let (notes, s) ← parseJsonString s
  let s ← expectLit ",\"createdAt\":".toList s
  let (createdAt, s) ← parseJsonString s
  let s ← expectLit ",\"updatedAt\":".toList s
  let (updatedAt, s) ← parseJsonString s
  let s ← expectLit "\x7d".toList s
  some (⟨id, website, username, password, notes, createdAt, updatedAt⟩, s)

/-- Parser for a non-empty comma-separated entry sequence, with fuel. -/
def parseEntriesAux : Nat → List Char → Option (List PasswordEntry × List Char)
  | 0, _ => none
  | fuel + 1, s =>
    match parseEntry s with
    | none => none
    | some (e, s1) =>
      match expectLit [','] s1 with
      | some s2 =>
        match parseEntriesAux fuel s2 with
        | some (es, s3) => some (e :: es, s3)
        | none => none
      | none => some ([e], s1)

/-- Modelled from the spec: `JSON.parse` specialised to the persisted vault
payload, accepting exactly the layout `stringifyVaultData` emits. -/
def parseVaultData (str : String) : Option VaultData := do
  let s := str.toList
  let s ← expectLit "\x7b\"entries\":[".toList s
  let (entries, s) ←
    match expectLit "]".toList s with
    | some s1 => some (([] : List PasswordEntry), s1)
    | none => do
      let (es, s1) ← parseEntriesAux (s.length + 1) s
      let s2 ← expectLit "]".toList s1
      some (es, s2)
  let s ← expectLit ",\"version\":".toList s
  let (version, s) ← parseJsonString s
  let s ← expectLit ",\"lastModified\":".toList s
  let (lastModified, s) ← parseJsonString s
  let s ← expectLit ",\"masterPasswordHash\":".toList s
  let (masterPasswordHash, s) ← parseJsonString s
  let s ← expectLit "\x7d".toList s
  match s with
  | [] => some ⟨entries, version, lastModified, masterPasswordHash⟩
  | _ => none

/-! ### VaultStore, file-based variant (part_003)

The module-level mutable `currentVaultData : VaultData | null` becomes an
explicit `Option VaultData` state threaded through the operations, and
`new Date().toISOString()` becomes an explicit `now` argument. -/

namespace FileStore

/-- Embedding of `hashMasterPassword` from part_003: SHA-256 of the password
with the fixed constant string appended, base64-encoded. -/
def hashMasterPassword (masterPassword : String) : String :=
  String.mk (b64encode (sha256 (utf8Bytes (masterPassword ++ "password_manager_salt"))))

/-- Embedding of `saveVault` from part_003: stores the vault in the in-memory
session slot and reports success (this variant does not encrypt on save). -/
def saveVault (st : Option VaultData) (vaultData : VaultData)
    (masterPassword : String) : Bool × Option VaultData :=
  (true, some vaultData)

/-- Embedding of `setupMasterPassword` from part_003: hashes the password,
builds the fresh empty vault and saves it. -/
def setupMasterPassword (st : Option VaultData) (masterPassword now : String) :
    Bool × Option VaultData :=
  let hash := hashMasterPassword masterPassword
  let emptyVault : VaultData :=
    { entries := [], version := "1.0.0", lastModified := now, masterPasswordHash := hash }
  saveVault st emptyVault masterPassword

/-- Embedding of `verifyMasterPassword` from part_003: false when no vault is
loaded or its stored hash is falsy (the empty string), otherwise compares the
stored hash with the recomputed hash of the supplied password. -/
def verifyMasterPassword (st : Option VaultData) (masterPassword : String) : Bool :=
  match st with
  | none => false
  | some v =>
    if v.masterPasswordHash = "" then false
    else v.masterPasswordHash == hashMasterPassword masterPassword

/-- Embedding of `uploadVaultFile` from part_003, taking the already-parsed
`EncryptedData` payload of the chosen file: decrypts it, parses the vault
JSON, and only on full success replaces the in-memory vault; any failure is
caught and reported as `false` with the previous state kept. -/
def uploadVaultFile (st : Option VaultData) (blob : EncryptedData)
    (masterPassword : String) : Bool × Option VaultData :=
  match decryptData blob masterPassword with
  | .error _ => (false, st)
  | .ok decryptedString =>
    match parseVaultData decryptedString with
    | none => (false, st)
    | some vaultData => (true, some vaultData)

end FileStore

/-! ### VaultStore, web-localStorage variant (part_002) -/

namespace LocalStore

/-- Embedding of the `VaultData` interface from part_002 (no embedded hash). -/
structure VaultData where
  entries : List PasswordEntry
  version : String
  lastModified : String
deriving DecidableEq, Repr

/-- Modelled from the spec: `JSON.stringify` of the part_002 `VaultData`. -/
def stringifyVaultData (v : VaultData) : String :=
  "\x7b\"entries\":[" ++ String.intercalate "," (v.entries.map stringifyEntry) ++
  "],\"version\":" ++ jstr v.version ++
  ",\"lastModified\":" ++ jstr v.lastModified ++ "\x7d"

/-- The two localStorage slots this variant uses (`pm_master_hash`, `pm_vault`). -/
structure LocalState where
  masterHash : Option String
  vaultBlob : Option EncryptedData
deriving DecidableEq, Repr

/-- Embedding of `hashMasterPassword` from part_002 (textually identical to
the part_003 copy). -/
def hashMasterPassword (masterPassword : String) : String :=
  String.mk (b64encode (sha256 (utf8Bytes (masterPassword ++ "password_manager_salt"))))

/-- Embedding of `saveVault` from part_002: encrypts the serialized vault and
stores the blob in the `pm_vault` slot. -/
def saveVault (rand : RandStream) (st : LocalState) (vaultData : VaultData)
    (masterPassword : String) : Bool × LocalState :=
  let jsonData := stringifyVaultData vaultData
  let encrypted := encryptData rand jsonData masterPassword
  (true, { st with vaultBlob := some encrypted })

/-- Embedding of `setupMasterPassword` from part_002: stores the hash in the
`pm_master_hash` slot and saves a fresh empty vault. -/
def setupMasterPassword (rand : RandStream) (st : LocalState)
    (masterPassword now : String) : Bool × LocalState :=
  let hash := hashMasterPassword masterPassword
  let st1 := { st with masterHash := some hash }
  saveVault rand st1 { entries := [], version := "1.0.0", lastModified := now } masterPassword

/-- Embedding of `verifyMasterPassword` from part_002: compares against the
independently stored hash, with no loaded-vault requirement. -/
def verifyMasterPassword (st : LocalState) (masterPassword : String) : Bool :=
  match st.masterHash with
  | none => false
  | some storedHash =>
    if storedHash = "" then false
    else storedHash == hashMasterPassword masterPassword

end LocalStore

/-! ### Vault-store claims -/

theorem mk_eq_empty_iff (l : List Char) : String.mk l = "" ↔ l = [] := by
  constructor
  · intro h
    have := congrArg String.data h
    simpa using this
  · intro h
    rw [h]

theorem hashMasterPassword_ne_empty (pw : String) :
    FileStore.hashMasterPassword pw ≠ "" := by
  unfold FileStore.hashMasterPassword
  intro h
  exact b64encode_ne_nil _ (sha256_ne_nil _) ((mk_eq_empty_iff _).mp h)

/-- A sample non-empty vault used as the concrete pre-existing session state. -/
def demoEntry : PasswordEntry :=
  ⟨"id-1", "example.com", "a@b.com", "x", "", "2024-01-01", "2024-01-01"⟩

/-- A sample vault holding one entry. -/
def demoVault : VaultData :=
  ⟨[demoEntry], "1.0.0", "2024-01-01", "demo-hash"⟩

/-- C4 counterexample: with a vault already present in the session,
`setupMasterPassword` still reports success and replaces the existing vault
with a fresh empty one, so it does not fail when a vault already exists. -/
theorem setup_succeeds_despite_existing_vault :
    (FileStore.setupMasterPassword (some demoVault) "Correct-Horse1!" "2024-02-02").1 = true ∧
    (FileStore.setupMasterPassword (some demoVault) "Correct-Horse1!" "2024-02-02").2.map
        VaultData.entries = some [] ∧
    demoVault.entries ≠ [] :=
  ⟨rfl, rfl, by decide⟩

/-- C4 amended: `setupMasterPassword` performs no existing-vault check; for
every prior session state it succeeds, creating and persisting a fresh empty
`VaultData` that carries the computed `masterPasswordHash` (overwriting any
previously loaded vault). -/
theorem setup_unconditionally_persists_empty_vault
    (st : Option VaultData) (pw now : String) :
    FileStore.setupMasterPassword st pw now =
      (true, some { entries := [], version := "1.0.0", lastModified := now,
                    masterPasswordHash := FileStore.hashMasterPassword pw }) := rfl

/-- C8: when decrypting an uploaded blob fails, the previously loaded
in-memory vault state is returned untouched and the failure is surfaced as
`false`; the in-memory vault changes only when decryption succeeded, and on
full success it is replaced by the decrypted, parsed vault. -/
theorem upload_failure_preserves_state (st : Option VaultData)
    (blob : EncryptedData) (pw : String) :
    (∀ e, decryptData blob pw = .error e →
        FileStore.uploadVaultFile st blob pw = (false, st)) ∧
    ((FileStore.uploadVaultFile st blob pw).2 ≠ st →
        ∃ s, decryptData blob pw = .ok s) ∧
    (∀ s v, decryptData blob pw = .ok s → parseVaultData s = some v →
        FileStore.uploadVaultFile st blob pw = (true, some v)) := by
  unfold FileStore.uploadVaultFile
  cases hd : decryptData blob pw with
  | error e =>
    refine ⟨fun _ _ => rfl, fun hne => absurd rfl hne, ?_⟩
    intro s v hok hp
    cases hok
  | ok s =>
    refine ⟨?_, fun _ => ⟨s, rfl⟩, ?_⟩
    · intro e herr
      cases herr
    · intro s' v hok hp
      cases hok
      show (match parseVaultData s with
            | none => (false, st)
            | some vaultData => (true, some vaultData)) = (true, some v)
      rw [hp]

/-- Witness for C8 at a concrete input: decrypting a blob produced under one
password with a different password fails, and the upload leaves the loaded
demo vault exactly in place while reporting `false`. -/
theorem upload_failure_preserves_state_witness :
    FileStore.uploadVaultFile (some demoVault)
        (encryptData (fun i => i) "payload" "pw1") "pw2" = (false, some demoVault) :=
  (upload_failure_preserves_state (some demoVault)
      (encryptData (fun i => i) "payload" "pw1") "pw2").1
    "Invalid master password or corrupted data" rfl

/-- C9: `verifyMasterPassword` returns `true` exactly when a vault is loaded
in the session and the recomputed salted hash of the supplied password equals
the loaded vault's `masterPasswordHash`; with no vault loaded it is `false`. -/
theorem verify_iff_loaded_hash_matches (st : Option VaultData) (pw : String) :
    (FileStore.verifyMasterPassword st pw = true ↔
      ∃ v, st = some v ∧ v.masterPasswordHash = FileStore.hashMasterPassword pw) ∧
    FileStore.verifyMasterPassword none pw = false := by
  refine ⟨?_, rfl⟩
  cases st with
  | none =>
    simp [FileStore.verifyMasterPassword]
  | some v =>
    simp only [FileStore.verifyMasterPassword]
    by_cases hmt : v.masterPasswordHash = ""
    · rw [if_pos hmt]
      constructor
      · intro hcontra
        cases hcontra
      · intro ⟨v', hv', hhash⟩
        cases hv'
        exact absurd (hhash ▸ hmt) (hashMasterPassword_ne_empty pw)
    · rw [if_neg hmt]
      simp [beq_iff_eq]

/-- Witness for C9 at a concrete input: with a vault whose stored hash is the
hash of the supplied password, verification succeeds. -/
theorem verify_iff_loaded_hash_matches_witness :
    FileStore.verifyMasterPassword
      (some ⟨[], "1.0.0", "t", FileStore.hashMasterPassword "Correct-Horse1!"⟩)
      "Correct-Horse1!" = true :=
  (verify_iff_loaded_hash_matches
      (some ⟨[], "1.0.0", "t", FileStore.hashMasterPassword "Correct-Horse1!"⟩)
      "Correct-Horse1!").1.mpr ⟨_, rfl, rfl⟩

/-- C10: the master-password verification hash is SHA-256 of the password with
the fixed constant string `password_manager_salt` appended, base64-encoded, so
it is fully deterministic: any two sessions set up with the same password (in
either storage variant) store the identical `masterPasswordHash`. -/
theorem master_hash_fixed_salt_deterministic (pw : String)
    (st1 st2 : Option VaultData) (now1 now2 : String) (rand : RandStream)
    (st3 : LocalStore.LocalState) (now3 : String) :
    ((FileStore.setupMasterPassword st1 pw now1).2.map VaultData.masterPasswordHash =
      some (String.mk (b64encode (sha256 (utf8Bytes (pw ++ "password_manager_salt")))))) ∧
    ((FileStore.setupMasterPassword st1 pw now1).2.map VaultData.masterPasswordHash =
      (FileStore.setupMasterPassword st2 pw now2).2.map VaultData.masterPasswordHash) ∧
    ((LocalStore.setupMasterPassword rand st3 pw now3).2.masterHash =
      some (FileStore.hashMasterPassword pw)) :=
  ⟨rfl, rfl, rfl⟩

/-! ### PasswordGenerator (part_004, `generatePassword` / `shuffleString`)

`crypto.getRandomValues(new Uint8Array(1))[0]` is one draw `rand k` from the
ambient stream (the source reduces it mod the respective charset length, so
carrying the raw draw and reducing at use is equivalent); the stream position
`k` is threaded explicitly through the loops in program order.  JavaScript
numbers are modelled as exact naturals, so `Math.floor(length * 0.2)` and
`Math.floor(length * 0.15)` are the natural-division defaults. -/

/-- Embedding of the `PasswordGeneratorOptions` interface from part_004;
`none` for `numbersCount` / `symbolsCount` is the undefined (defaulted) case. -/
structure PasswordGeneratorOptions where
  length : Nat
  includeNumbers : Bool
  includeSymbols : Bool
  includeUppercase : Bool
  includeLowercase : Bool
  numbersCount : Option Nat
  symbolsCount : Option Nat
deriving DecidableEq, Repr

def lowercaseChars : List Char := "abcdefghijklmnopqrstuvwxyz".toList

def uppercaseChars : List Char := "ABCDEFGHIJKLMNOPQRSTUVWXYZ".toList

def numberChars : List Char := "0123456789".toList

def symbolChars : List Char := "!@#$%^&*()_+-=[]\x7b\x7d|;:,.<>?".toList

/-- The effective `numbersCount` (explicit value, or the `Math.floor(length * 0.2)`
default from the destructuring). -/
def effNumbersCount (options : PasswordGeneratorOptions) : Nat :=
  options.numbersCount.getD (options.length * 2 / 10)

/-- The effective `symbolsCount` (explicit value, or the `Math.floor(length * 0.15)`
default from the destructuring). -/
def effSymbolsCount (options : PasswordGeneratorOptions) : Nat :=
  options.symbolsCount.getD (options.length * 15 / 100)

/-- The combined charset built from the enabled character classes, in the
source's build order. -/
def charsetOf (options : PasswordGeneratorOptions) : List Char :=
  (if options.includeLowercase then lowercaseChars else []) ++
  (if options.includeUppercase then uppercaseChars else []) ++
  (if options.includeNumbers then numberChars else []) ++
  (if options.includeSymbols then symbolChars else [])

/-- One source-style indexed pick: `chars[randomByte % chars.length]`. -/
def charAt (chars : List Char) (r : Nat) : Char :=
  chars.getD (r % chars.length) ' '

/-- Embedding of the inner requirement loop of `generatePassword`: appends
`count` random characters of one required class, advancing the stream. -/
def addRequiredChars (rand : RandStream) (chars : List Char) :
    Nat → List Char × Nat → List Char × Nat
  | 0, acc => acc
  | count + 1, (password, k) =>
      addRequiredChars rand chars count (password ++ [charAt chars (rand k)], k + 1)

/-- Embedding of the `while (password.length < length)` fill loop, with the
iteration count (which the loop condition determines exactly) made explicit. -/
def fillGo (rand : RandStream) (charset : List Char) :
    Nat → List Char → Nat → List Char × Nat
  | 0, password, k => (password, k)
  | n + 1, password, k => fillGo rand charset n (password ++ [charAt charset (rand k)]) (k + 1)

def fillFromCharset (rand : RandStream) (charset : List Char) (length : Nat)
    (acc : List Char × Nat) : List Char × Nat :=
  fillGo rand charset (length - acc.1.length) acc.1 acc.2

/-- Swap of two positions of the character array, as in the source's
destructuring assignment. -/
def swapChars (l : List Char) (i j : Nat) : List Char :=
  let a := l.getD i ' '
  let b := l.getD j ' '
  (l.set i b).set j a

/-- Embedding of the Fisher-Yates loop of `shuffleString`: the argument is the
current loop index `i` (the loop body runs while `i > 0`), and `j` is the
fresh random byte reduced mod `i + 1`. -/
def shuffleLoop (rand : RandStream) : Nat → Nat → List Char → List Char
  | _, 0, arr => arr
  | k, i + 1, arr => shuffleLoop rand (k + 1) i (swapChars arr (i + 1) (rand k % (i + 2)))

/-- Embedding of `shuffleString` from part_004. -/
def shuffleString (rand : RandStream) (k : Nat) (s : List Char) : List Char :=
  shuffleLoop rand k (s.length - 1) s

/-- The `requirements` list built by `generatePassword`: the required numeric
and symbol minimums, each capped at the requested length, in source order. -/
def requirementsOf (options : PasswordGeneratorOptions) : List (List Char × Nat) :=
  (if options.includeNumbers = true ∧ effNumbersCount options > 0 then
    [(numberChars, min (effNumbersCount options) options.length)] else []) ++
  (if options.includeSymbols = true ∧ effSymbolsCount options > 0 then
    [(symbolChars, min (effSymbolsCount options) options.length)] else [])

/-- Embedding of `generatePassword` from part_004, on the character-list view
of the produced string. -/
def generatePassword (rand : RandStream) (options : PasswordGeneratorOptions) :
    Except String (List Char) :=
  let length := options.length
  let charset := charsetOf options
  if charset = [] then
    .error "At least one character type must be selected"
  else
    let requirements := requirementsOf options
    let acc1 := requirements.foldl
      (fun acc req => addRequiredChars rand req.1 req.2 acc) ([], 0)
    let acc2 := fillFromCharset rand charset length acc1
    .ok (shuffleString rand acc2.2 acc2.1)

/-- The guaranteed number of required numeric characters. -/
def requiredNumbers (options : PasswordGeneratorOptions) : Nat :=
  if options.includeNumbers = true ∧ effNumbersCount options > 0 then
    min (effNumbersCount options) options.length
  else 0

/-- The guaranteed number of required symbol characters. -/
def requiredSymbols (options : PasswordGeneratorOptions) : Nat :=
  if options.includeSymbols = true ∧ effSymbolsCount options > 0 then
    min (effSymbolsCount options) options.length
  else 0

/-- Normal form of a run of indexed random picks from one charset. -/
def drawnChars (rand : RandStream) (chars : List Char) : Nat → Nat → List Char
  | _, 0 => []
  | k, n + 1 => charAt chars (rand k) :: drawnChars rand chars (k + 1) n

theorem charAt_mem (chars : List Char) (h : chars ≠ []) (r : Nat) :
    charAt chars r ∈ chars := by
  unfold charAt
  have hlen : 0 < chars.length := List.length_pos.mpr h
  have hlt : r % chars.length < chars.length := Nat.mod_lt _ hlen
  rw [List.getD_eq_getElem?_getD, List.getElem?_eq_getElem hlt]
  exact List.getElem_mem hlt

theorem drawnChars_length (rand : RandStream) (chars : List Char) :
    ∀ (n k : Nat), (drawnChars rand chars k n).length = n := by
  intro n
  induction n with
  | zero => intro k; rfl
  | succ n ih => intro k; simp [drawnChars, ih]

theorem drawnChars_mem (rand : RandStream) (chars : List Char) (h : chars ≠ []) :
    ∀ (n k : Nat) (c : Char), c ∈ drawnChars rand chars k n → c ∈ chars := by
  intro n
  induction n with
  | zero => intro k c hc; cases hc
  | succ n ih =>
    intro k c hc
    cases hc with
    | head => exact charAt_mem chars h _
    | tail _ htl => exact ih _ _ htl

theorem drawnChars_countP (rand : RandStream) (chars : List Char) (p : Char → Bool)
    (h : chars ≠ []) (hall : ∀ c ∈ chars, p c = true) :
    ∀ (n k : Nat), (drawnChars rand chars k n).countP p = n := by
  intro n
  induction n with
  | zero => intro k; rfl
  | succ n ih =>
    intro k
    rw [drawnChars, List.countP_cons, ih, hall _ (charAt_mem chars h _)]
    simp

theorem addRequiredChars_eq (rand : RandStream) (chars : List Char) :
    ∀ (n : Nat) (pw : List Char) (k : Nat),
      addRequiredChars rand chars n (pw, k) = (pw ++ drawnChars rand chars k n, k + n) := by
  intro n
  induction n with
  | zero => intro pw k; simp [addRequiredChars, drawnChars]
  | succ n ih =>
    intro pw k
    rw [addRequiredChars, ih]
    rw [drawnChars]
    simp [List.append_assoc]
    omega

theorem fillGo_eq (rand : RandStream) (charset : List Char) :
    ∀ (n : Nat) (pw : List Char) (k : Nat),
      fillGo rand charset n pw k = (pw ++ drawnChars rand charset k n, k + n) := by
  intro n
  induction n with
  | zero => intro pw k; simp [fillGo, drawnChars]
  | succ n ih =>
    intro pw k
    rw [fillGo, ih]
    rw [drawnChars]
    simp [List.append_assoc]
    omega

theorem getD_set_self (l : List Char) :
    ∀ (i : Nat) (b : Char), i < l.length → (l.set i b).getD i ' ' = b := by
  induction l with
  | nil => intro i b h; simp at h
  | cons x xs ih =>
    intro i b h
    cases i with
    | zero => rfl
    | succ n => exact ih n b (by simpa using h)

theorem getD_set_ne (l : List Char) :
    ∀ (i j : Nat) (b : Char), i ≠ j → (l.set i b).getD j ' ' = l.getD j ' ' := by
  induction l with
  | nil => intro i j b _; simp [List.set]
  | cons x xs ih =>
    intro i j b hne
    cases i with
    | zero =>
      cases j with
      | zero => exact absurd rfl hne
      | succ m => rfl
    | succ n =>
      cases j with
      | zero => rfl
      | succ m =>
        simp only [List.set, List.getD_cons_succ]
        exact ih n m b (fun hc => hne (by rw [hc]))

theorem countP_set_add (p : Char → Bool) :
    ∀ (l : List Char) (i : Nat) (b : Char), i < l.length →
      (l.set i b).countP p + (if p (l.getD i ' ') then 1 else 0) =
        l.countP p + (if p b then 1 else 0) := by
  intro l
  induction l with
  | nil => intro i b h; simp at h
  | cons x xs ih =>
    intro i b h
    cases i with
    | zero =>
      simp only [List.set, List.getD_cons_zero, List.countP_cons]
      omega
    | succ n =>
      simp only [List.set, List.getD_cons_succ, List.countP_cons]
      have := ih n b (by simpa using h)
      omega

theorem countP_swapChars (p : Char → Bool) (l : List Char) (i j : Nat)
    (hi : i < l.length) (hj : j < l.length) :
    (swapChars l i j).countP p = l.countP p := by
  have hswap : swapChars l i j = (l.set i (l.getD j ' ')).set j (l.getD i ' ') := rfl
  rw [hswap]
  by_cases hij : i = j
  · subst hij
    have h1 := countP_set_add p l i (l.getD i ' ') hi
    have h2 := countP_set_add p (l.set i (l.getD i ' ')) i (l.getD i ' ')
      (by simpa using hi)
    rw [getD_set_self _ _ _ hi] at h2
    omega
  · have h1 := countP_set_add p l i (l.getD j ' ') hi
    have h2 := countP_set_add p (l.set i (l.getD j ' ')) j (l.getD i ' ')
      (by simpa using hj)
    rw [getD_set_ne _ _ _ _ hij] at h2
    omega

theorem length_swapChars (l : List Char) (i j : Nat) :
    (swapChars l i j).length = l.length := by
  simp [swapChars]

theorem length_shuffleLoop (rand : RandStream) :
    ∀ (i k : Nat) (arr : List Char), (shuffleLoop rand k i arr).length = arr.length := by
  intro i
  induction i with
  | zero => intro k arr; rfl
  | succ n ih =>
    intro k arr
    rw [shuffleLoop, ih, length_swapChars]

theorem countP_shuffleLoop (rand : RandStream) (p : Char → Bool) :
    ∀ (i k : Nat) (arr : List Char), i < arr.length →
      (shuffleLoop rand k i arr).countP p = arr.countP p := by
  intro i
  induction i with
  | zero => intro k arr _; rfl
  | succ n ih =>
    intro k arr h
    rw [shuffleLoop, ih _ _ (by rw [length_swapChars]; omega),
      countP_swapChars p arr (n + 1) _ h (Nat.lt_of_lt_of_le (Nat.mod_lt _ (by omega)) (by omega))]

theorem length_shuffleString (rand : RandStream) (k : Nat) (s : List Char) :
    (shuffleString rand k s).length = s.length :=
  length_shuffleLoop rand _ k s

theorem countP_shuffleString (rand : RandStream) (p : Char → Bool) (k : Nat)
    (s : List Char) : (shuffleString rand k s).countP p = s.countP p := by
  unfold shuffleString
  cases s with
  | nil => rfl
  | cons x xs => exact countP_shuffleLoop rand p _ k (x :: xs) (by simp)

theorem mem_shuffleString (rand : RandStream) (k : Nat) (s : List Char) (c : Char) :
    c ∈ shuffleString rand k s ↔ c ∈ s := by
  rw [← List.count_pos_iff, ← List.count_pos_iff, List.count_eq_countP,
    List.count_eq_countP, countP_shuffleString]

theorem fillFromCharset_eq (rand : RandStream) (charset : List Char)
    (length : Nat) (pw : List Char) (k : Nat) :
    fillFromCharset rand charset length (pw, k) =
      (pw ++ drawnChars rand charset k (length - pw.length),
       k + (length - pw.length)) := by
  unfold fillFromCharset
  exact fillGo_eq rand charset _ pw k

theorem foldl_requirementsOf (rand : RandStream) (options : PasswordGeneratorOptions) :
    (requirementsOf options).foldl (fun acc req => addRequiredChars rand req.1 req.2 acc) ([], 0) =
      (drawnChars rand numberChars 0 (requiredNumbers options) ++
        drawnChars rand symbolChars (requiredNumbers options) (requiredSymbols options),
       requiredNumbers options + requiredSymbols options) := by
  unfold requirementsOf requiredNumbers requiredSymbols
  by_cases hn : options.includeNumbers = true ∧ effNumbersCount options > 0 <;>
    by_cases hs : options.includeSymbols = true ∧ effSymbolsCount options > 0 <;>
      simp [hn, hs, List.foldl, addRequiredChars_eq, drawnChars]

theorem generatePassword_eq (rand : RandStream) (options : PasswordGeneratorOptions)
    (h : charsetOf options ≠ []) :
    generatePassword rand options =
      .ok (shuffleString rand
        (requiredNumbers options + requiredSymbols options +
          (options.length - (requiredNumbers options + requiredSymbols options)))
        (drawnChars rand numberChars 0 (requiredNumbers options) ++
         drawnChars rand symbolChars (requiredNumbers options) (requiredSymbols options) ++
         drawnChars rand (charsetOf options)
           (requiredNumbers options + requiredSymbols options)
           (options.length - (requiredNumbers options + requiredSymbols options)))) := by
  unfold generatePassword
  rw [if_neg h]
  show Except.ok (shuffleString rand
      (fillFromCharset rand (charsetOf options) options.length
        (List.foldl (fun acc req => addRequiredChars rand req.1 req.2 acc) ([], 0)
          (requirementsOf options))).2
      (fillFromCharset rand (charsetOf options) options.length
        (List.foldl (fun acc req => addRequiredChars rand req.1 req.2 acc) ([], 0)
          (requirementsOf options))).1) = _
  rw [foldl_requirementsOf, fillFromCharset_eq]
  simp only [List.length_append, drawnChars_length, List.append_assoc]

theorem charsetOf_eq_nil_iff (options : PasswordGeneratorOptions) :
    charsetOf options = [] ↔
      options.includeUppercase = false ∧ options.includeLowercase = false ∧
      options.includeNumbers = false ∧ options.includeSymbols = false := by
  unfold charsetOf
  cases hl : options.includeLowercase <;> cases hu : options.includeUppercase <;>
    cases hn : options.includeNumbers <;> cases hs : options.includeSymbols <;> decide

theorem charsetOf_ne_nil (options : PasswordGeneratorOptions)
    (hclass : options.includeUppercase = true ∨ options.includeLowercase = true ∨
      options.includeNumbers = true ∨ options.includeSymbols = true) :
    charsetOf options ≠ [] := by
  rw [Ne, charsetOf_eq_nil_iff]
  intro ⟨h1, h2, h3, h4⟩
  rcases hclass with h | h | h | h <;> simp_all

theorem mem_charsetOf_of_numbers (options : PasswordGeneratorOptions)
    (hflag : options.includeNumbers = true) (c : Char) (hc : c ∈ numberChars) :
    c ∈ charsetOf options := by
  unfold charsetOf
  simp [hflag, hc]

theorem mem_charsetOf_of_symbols (options : PasswordGeneratorOptions)
    (hflag : options.includeSymbols = true) (c : Char) (hc : c ∈ symbolChars) :
    c ∈ charsetOf options := by
  unfold charsetOf
  simp [hflag, hc]

theorem includeNumbers_of_requiredNumbers_ne (options : PasswordGeneratorOptions)
    (h : requiredNumbers options ≠ 0) : options.includeNumbers = true := by
  unfold requiredNumbers at h
  by_cases hc : options.includeNumbers = true ∧ effNumbersCount options > 0
  · exact hc.1
  · rw [if_neg hc] at h
    exact absurd rfl h

theorem includeSymbols_of_requiredSymbols_ne (options : PasswordGeneratorOptions)
    (h : requiredSymbols options ≠ 0) : options.includeSymbols = true := by
  unfold requiredSymbols at h
  by_cases hc : options.includeSymbols = true ∧ effSymbolsCount options > 0
  · exact hc.1
  · rw [if_neg hc] at h
    exact absurd rfl h

/-- The full behavioural description of a successful `generatePassword` call:
the produced character list, its length, its charset membership, and the two
guaranteed class counts. -/
theorem generatePassword_spec (rand : RandStream) (options : PasswordGeneratorOptions)
    (h : charsetOf options ≠ []) :
    ∃ l, generatePassword rand options = .ok l ∧
      l.length = max options.length (requiredNumbers options + requiredSymbols options) ∧
      (∀ c ∈ l, c ∈ charsetOf options) ∧
      requiredNumbers options ≤ l.countP (fun c => decide (c ∈ numberChars)) ∧
      requiredSymbols options ≤ l.countP (fun c => decide (c ∈ symbolChars)) := by
  refine ⟨_, generatePassword_eq rand options h, ?_, ?_, ?_, ?_⟩
  · rw [length_shuffleString]
    simp only [List.length_append, drawnChars_length]
    omega
  · intro c hc
    rw [mem_shuffleString] at hc
    rcases List.mem_append.mp hc with hns | hf
    · rcases List.mem_append.mp hns with hn1 | hs1
      · have hmem : c ∈ numberChars :=
          drawnChars_mem rand numberChars (by decide) _ _ c hn1
        have hrn : requiredNumbers options ≠ 0 := by
          intro h0
          rw [h0] at hn1
          simp [drawnChars] at hn1
        exact mem_charsetOf_of_numbers options
          (includeNumbers_of_requiredNumbers_ne options hrn) c hmem
      · have hmem : c ∈ symbolChars :=
          drawnChars_mem rand symbolChars (by decide) _ _ c hs1
        have hrs : requiredSymbols options ≠ 0 := by
          intro h0
          rw [h0] at hs1
          simp [drawnChars] at hs1
        exact mem_charsetOf_of_symbols options
          (includeSymbols_of_requiredSymbols_ne options hrs) c hmem
    · exact drawnChars_mem rand _ h _ _ c hf
  · rw [countP_shuffleString]
    simp only [List.countP_append]
    have := drawnChars_countP rand numberChars (fun c => decide (c ∈ numberChars))
      (by decide) (by decide) (requiredNumbers options) 0
    omega
  · rw [countP_shuffleString]
    simp only [List.countP_append]
    have := drawnChars_countP rand symbolChars (fun c => decide (c ∈ symbolChars))
      (by decide) (by decide) (requiredSymbols options) (requiredNumbers options)
    omega

/-- The options of the C3 counterexample: explicit numeric and symbol counts
whose capped sum exceeds the requested length. -/
def cexOptions : PasswordGeneratorOptions :=
  { length := 2, includeNumbers := true, includeSymbols := true,
    includeUppercase := false, includeLowercase := false,
    numbersCount := some 2, symbolsCount := some 2 }

/-- C3 counterexample: for length 2 with explicit `numbersCount = 2` and
`symbolsCount = 2`, `generatePassword` returns a 4-character string, so the
output length is not `options.length`. -/
theorem generate_length_counterexample :
    cexOptions.length = 2 ∧
      (generatePassword (fun _ => 0) cexOptions).map List.length = .ok 4 :=
  ⟨rfl, rfl⟩

/-- C3 amended: with at least one class enabled, the output length equals
`options.length` whenever the total of the required class minimums (each
capped at the length) does not exceed `options.length` — which always holds
for the defaulted counts; for larger explicit counts the output is longer. -/
theorem generate_length_eq_when_requirements_fit (rand : RandStream)
    (options : PasswordGeneratorOptions)
    (hclass : options.includeUppercase = true ∨ options.includeLowercase = true ∨
      options.includeNumbers = true ∨ options.includeSymbols = true)
    (hfit : requiredNumbers options + requiredSymbols options ≤ options.length) :
    ∃ l, generatePassword rand options = .ok l ∧ l.length = options.length := by
  obtain ⟨l, hgen, hlen, _, _, _⟩ :=
    generatePassword_spec rand options (charsetOf_ne_nil options hclass)
  exact ⟨l, hgen, by omega⟩

/-- Options with every class enabled and defaulted counts, used as the
concrete witness input. -/
def defaultedOptions : PasswordGeneratorOptions :=
  { length := 10, includeNumbers := true, includeSymbols := true,
    includeUppercase := true, includeLowercase := true,
    numbersCount := none, symbolsCount := none }

/-- Witness for the amended C3 at a concrete input: the defaulted requirement
counts fit and the generated password has exactly the requested length. -/
theorem generate_length_eq_witness :
    (requiredNumbers defaultedOptions + requiredSymbols defaultedOptions ≤
      defaultedOptions.length) ∧
    ∃ l, generatePassword (fun i => i * 7 + 3) defaultedOptions = .ok l ∧
      l.length = defaultedOptions.length :=
  ⟨by decide,
   generate_length_eq_when_requirements_fit (fun i => i * 7 + 3) defaultedOptions
     (Or.inl rfl) (by decide)⟩

/-- C5: whenever numbers (resp. symbols) are enabled with a positive effective
count (explicit, or the defaulted 20 percent resp. 15 percent of the length),
the generated password contains at least `min(count, length)` characters of
that class. -/
theorem generate_min_class_counts (rand : RandStream)
    (options : PasswordGeneratorOptions) :
    (options.includeNumbers = true → 0 < effNumbersCount options →
      ∃ l, generatePassword rand options = .ok l ∧
        min (effNumbersCount options) options.length ≤
          l.countP (fun c => decide (c ∈ numberChars))) ∧
    (options.includeSymbols = true → 0 < effSymbolsCount options →
      ∃ l, generatePassword rand options = .ok l ∧
        min (effSymbolsCount options) options.length ≤
          l.countP (fun c => decide (c ∈ symbolChars))) := by
  constructor
  · intro hflag hpos
    obtain ⟨l, hgen, _, _, hcount, _⟩ := generatePassword_spec rand options
      (charsetOf_ne_nil options (Or.inr (Or.inr (Or.inl hflag))))
    refine ⟨l, hgen, ?_⟩
    have hreq : requiredNumbers options = min (effNumbersCount options) options.length := by
      unfold requiredNumbers
      rw [if_pos ⟨hflag, hpos⟩]
    omega
  · intro hflag hpos
    obtain ⟨l, hgen, _, _, _, hcount⟩ := generatePassword_spec rand options
      (charsetOf_ne_nil options (Or.inr (Or.inr (Or.inr hflag))))
    refine ⟨l, hgen, ?_⟩
    have hreq : requiredSymbols options = min (effSymbolsCount options) options.length := by
      unfold requiredSymbols
      rw [if_pos ⟨hflag, hpos⟩]
    omega

/-- Options with explicit class minimums, used as the concrete C5 witness. -/
def countedOptions : PasswordGeneratorOptions :=
  { length := 8, includeNumbers := true, includeSymbols := true,
    includeUppercase := false, includeLowercase := false,
    numbersCount := some 3, symbolsCount := some 2 }

/-- Witness for C5 at a concrete input: at least 3 digits and at least 2
symbols are present in the generated 8-character password. -/
theorem generate_min_class_counts_witness :
    (∃ l, generatePassword (fun i => i) countedOptions = .ok l ∧
      min (effNumbersCount countedOptions) countedOptions.length ≤
        l.countP (fun c => decide (c ∈ numberChars))) ∧
    (∃ l, generatePassword (fun i => i) countedOptions = .ok l ∧
      min (effSymbolsCount countedOptions) countedOptions.length ≤
        l.countP (fun c => decide (c ∈ symbolChars))) :=
  ⟨(generate_min_class_counts (fun i => i) countedOptions).1 rfl (by decide),
   (generate_min_class_counts (fun i => i) countedOptions).2 rfl (by decide)⟩

/-- C6: `generatePassword` fails with the empty-charset error exactly when all
four character-class flags are false, and any successfully generated password
consists solely of characters from the union of the enabled classes. -/
theorem generate_charset_invariant (rand : RandStream)
    (options : PasswordGeneratorOptions) :
    (generatePassword rand options = .error "At least one character type must be selected" ↔
      options.includeUppercase = false ∧ options.includeLowercase = false ∧
      options.includeNumbers = false ∧ options.includeSymbols = false) ∧
    (∀ l, generatePassword rand options = .ok l → ∀ c ∈ l, c ∈ charsetOf options) := by
  constructor
  · constructor
    · intro herr
      by_cases hcs : charsetOf options = []
      · exact (charsetOf_eq_nil_iff options).mp hcs
      · rw [generatePassword_eq rand options hcs] at herr
        cases herr
    · intro hflags
      have hcs : charsetOf options = [] := (charsetOf_eq_nil_iff options).mpr hflags
      unfold generatePassword
      rw [if_pos hcs]
  · intro l hl c hc
    by_cases hcs : charsetOf options = []
    · unfold generatePassword at hl
      rw [if_pos hcs] at hl
      cases hl
    · obtain ⟨l', hgen, _, hmem, _, _⟩ := generatePassword_spec rand options hcs
      rw [hgen] at hl
      cases hl
      exact hmem c hc

/-- Options with every class disabled, used in the C6 witness. -/
def allOffOptions : PasswordGeneratorOptions :=
  { length := 10, includeNumbers := false, includeSymbols := false,
    includeUppercase := false, includeLowercase := false,
    numbersCount := none, symbolsCount := none }

/-- Options enabling only digits, used in the C6 witness. -/
def digitsOnlyOptions : PasswordGeneratorOptions :=
  { length := 10, includeNumbers := true, includeSymbols := false,
    includeUppercase := false, includeLowercase := false,
    numbersCount := none, symbolsCount := none }

/-- Witness for C6 at concrete inputs: with every class disabled the
empty-charset error is raised, and a character of a concretely generated
digits-only password lies in the active charset. -/
theorem generate_charset_invariant_witness :
    generatePassword (fun i => i) allOffOptions =
        .error "At least one character type must be selected" ∧
      '1' ∈ charsetOf digitsOnlyOptions :=
  ⟨(generate_charset_invariant (fun i => i) allOffOptions).1.mpr ⟨rfl, rfl, rfl, rfl⟩,
   (generate_charset_invariant (fun i => i) digitsOnlyOptions).2
     ['1', '3', '5', '7', '9', '8', '6', '4', '2', '0'] rfl '1' (by decide)⟩

/-! ### StrengthScorer (part_004, `calculatePasswordStrength`)

The JavaScript regular-expression tests become character-range predicates over
the string's characters, and `password.length` is the character count. -/

/-- Test of the `/[a-z]/` regular expression. -/
def hasLower (s : String) : Bool :=
  s.toList.any fun c => decide ('a' ≤ c ∧ c ≤ 'z')

/-- Test of the `/[A-Z]/` regular expression. -/
def hasUpper (s : String) : Bool :=
  s.toList.any fun c => decide ('A' ≤ c ∧ c ≤ 'Z')

/-- Test of the `/[0-9]/` regular expression. -/
def hasDigit (s : String) : Bool :=
  s.toList.any fun c => decide ('0' ≤ c ∧ c ≤ '9')

/-- Test of the `/[^A-Za-z0-9]/` regular expression. -/
def hasSpecial (s : String) : Bool :=
  s.toList.any fun c =>
    !(decide ('A' ≤ c ∧ c ≤ 'Z') || decide ('a' ≤ c ∧ c ≤ 'z') || decide ('0' ≤ c ∧ c ≤ '9'))

/-- The result record of `calculatePasswordStrength`. -/
structure StrengthResult where
  score : Nat
  feedback : List String
deriving DecidableEq, Repr

/-- One character-variety block of `calculatePasswordStrength`: the source's
repeated `if (regex.test(password)) score += bonus; else feedback.push(msg)`
statement, acting on the running score/feedback pair. -/
def scoreStep (cond : Bool) (bonus : Nat) (msg : String)
    (sf : Nat × List String) : Nat × List String :=
  if cond then (sf.1 + bonus, sf.2) else (sf.1, sf.2 ++ [msg])

/-- The length-scoring block of `calculatePasswordStrength` applied to the
initial score 0 and empty feedback. -/
def lengthStep (password : String) : Nat × List String :=
  if password.length ≥ 12 then (0 + 25, [])
  else if password.length ≥ 8 then (0 + 15, [])
  else (0, [] ++ ["Use at least 12 characters"])

/-- Embedding of `calculatePasswordStrength` from part_004: the sequential
score accumulation and feedback pushes, with the final `Math.min(score, 100)`
cap. -/
def calculatePasswordStrength (password : String) : StrengthResult :=
  let sf1 := lengthStep password
  let sf2 := scoreStep (hasLower password) 15 "Include lowercase letters" sf1
  let sf3 := scoreStep (hasUpper password) 15 "Include uppercase letters" sf2
  let sf4 := scoreStep (hasDigit password) 15 "Include numbers" sf3
  let sf5 := scoreStep (hasSpecial password) 20 "Include special characters" sf4
  let final := if password.length ≥ 16 then sf5.1 + 10 else sf5.1
  { score := min final 100, feedback := sf5.2 }

theorem scoreStep_fst (cond : Bool) (bonus : Nat) (msg : String)
    (sf : Nat × List String) :
    (scoreStep cond bonus msg sf).1 = sf.1 + (if cond then bonus else 0) := by
  cases cond <;> simp [scoreStep]

theorem scoreStep_snd_length (cond : Bool) (bonus : Nat) (msg : String)
    (sf : Nat × List String) :
    (scoreStep cond bonus msg sf).2.length = sf.2.length + (if cond then 0 else 1) := by
  cases cond <;> simp [scoreStep]

theorem lengthStep_fst (password : String) :
    (lengthStep password).1 =
      (if password.length ≥ 12 then 25 else if password.length ≥ 8 then 15 else 0) := by
  unfold lengthStep
  split_ifs <;> rfl

theorem lengthStep_snd_length (password : String) :
    (lengthStep password).2.length = (if password.length ≥ 8 then 0 else 1) := by
  unfold lengthStep
  by_cases h12 : password.length ≥ 12 <;> by_cases h8 : password.length ≥ 8 <;>
    simp [h12, h8] <;> omega

/-- C7: the score is the capped sum of the individual criteria bonuses, one
feedback item is present for each missing criterion (the length item appears
exactly when the length is below 8, matching the source's else-branch), the
empty string scores 0 with all five feedback items, and the concrete
all-classes 12-character password scores at least 90. -/
theorem strength_score_formula (password : String) :
    ((calculatePasswordStrength password).score =
      min ((if password.length ≥ 12 then 25 else if password.length ≥ 8 then 15 else 0) +
        (if hasLower password then 15 else 0) +
        (if hasUpper password then 15 else 0) +
        (if hasDigit password then 15 else 0) +
        (if hasSpecial password then 20 else 0) +
        (if password.length ≥ 16 then 10 else 0)) 100 ∧
    (calculatePasswordStrength password).feedback.length =
      ((if password.length ≥ 8 then 0 else 1) +
        (if hasLower password then 0 else 1) +
        (if hasUpper password then 0 else 1) +
        (if hasDigit password then 0 else 1) +
        (if hasSpecial password then 0 else 1))) ∧
    calculatePasswordStrength "" =
      { score := 0,
        feedback := ["Use at least 12 characters", "Include lowercase letters",
          "Include uppercase letters", "Include numbers", "Include special characters"] } ∧
    90 ≤ (calculatePasswordStrength "Aa1!Aa1!Aa1!").score := by
  refine ⟨⟨?_, ?_⟩, by decide, by decide⟩
  · unfold calculatePasswordStrength
    dsimp only
    simp only [scoreStep_fst, lengthStep_fst]
    by_cases h16 : password.length ≥ 16 <;>
      simp only [h16, if_true, if_false, ite_true, ite_false] <;> omega
  · unfold calculatePasswordStrength
    dsimp only
    simp only [scoreStep_snd_length, lengthStep_snd_length]

end Keyguard
